import Mathlib

/-!
Verification of the in-memory credential service (`authService.js`).

The JavaScript source is shallowly embedded: JS strings become `List Char`,
the `typeof` dynamic check is modelled by a small value type `JSVal`, the
`Map` of users becomes an association list with `Map`-faithful operations,
and the two service methods `register`/`login` become state-passing
functions returning the HTTP-style result together with the new store.
-/

namespace AuthService

/-- A JavaScript string, embedded as its list of characters. -/
abbrev JSStr := List Char

/-- A JavaScript runtime value as far as `typeof v !== 'string'` can
distinguish it: a string, a number, or `undefined`. -/
inductive JSVal where
  | str (s : JSStr)
  | num (n : Int)
  | undef
deriving DecidableEq, Repr

/-- `typeof v === 'string'` from the source's validation guard. -/
def isString : JSVal → Bool
  | JSVal.str _ => true
  | _ => false

/-- The underlying string of a `JSVal`; only reached after the `typeof`
guard has ensured the value is a string. -/
def strVal : JSVal → JSStr
  | JSVal.str s => s
  | _ => []

/-- The characters removed by JavaScript `String.prototype.trim`
(ASCII whitespace, NBSP and the BOM). -/
def isWS (c : Char) : Bool :=
  c.toNat = 9 || c.toNat = 10 || c.toNat = 11 || c.toNat = 12 ||
    c.toNat = 13 || c.toNat = 32 || c.toNat = 160 || c.toNat = 65279

/-- JavaScript `s.trim()`: drop whitespace from the front, then from the
back. -/
def trim (s : JSStr) : JSStr :=
  List.rdropWhile isWS (List.dropWhile isWS s)

/-- JavaScript `s.toLowerCase()` on the character range the service deals
with: `Char.toLower` maps `A`–`Z` to `a`–`z` and fixes everything else,
exactly as `toLowerCase` does on that range. -/
def toLowerStr (s : JSStr) : JSStr := s.map Char.toLower

/-- `normalizeUsername = (username) => username.trim().toLowerCase()`. -/
def normalizeUsername (s : JSStr) : JSStr := toLowerStr (trim s)

def MIN_USERNAME_LENGTH : Nat := 3
def MIN_PASSWORD_LENGTH : Nat := 6

def msgMustBeStrings : JSStr := "Username and password must be strings.".data
def msgEmptyUser : JSStr := "Username cannot be empty.".data
def msgUserTooShort : JSStr := "Username must be at least 3 characters.".data
def msgPassTooShort : JSStr := "Password must be at least 6 characters.".data
def msgUserExists : JSStr := "Username already exists.".data
def msgRegSuccess : JSStr := "Registration successful.".data
def msgInvalid : JSStr := "Invalid username or password.".data
def msgLoginSuccess : JSStr := "Login successful.".data

/-- The `{valid, error}` object returned by `validateCredentials`. -/
structure ValidationResult where
  valid : Bool
  error : JSStr
deriving DecidableEq, Repr

/-- `validateCredentials(username, password)` from the source: the
`typeof` guard, then the emptiness, username-length and password-length
checks in order, first failure winning. -/
def validateCredentials (username password : JSVal) : ValidationResult :=
  match username, password with
  | JSVal.str u, JSVal.str p =>
    if trim u = [] then ⟨false, msgEmptyUser⟩
    else if (trim u).length < MIN_USERNAME_LENGTH then ⟨false, msgUserTooShort⟩
    else if p.length < MIN_PASSWORD_LENGTH then ⟨false, msgPassTooShort⟩
    else ⟨true, []⟩
  | _, _ => ⟨false, msgMustBeStrings⟩

/-- The value stored in `this.users`: the source stores
`{ username: normalizedUsername, password }` — the normalized name and the
plaintext password. -/
structure Account where
  username : JSStr
  password : JSStr
deriving DecidableEq, Repr

/-- The response body: `{message}` on success, `{error}` on failure. -/
inductive Body where
  | msg (m : JSStr)
  | err (e : JSStr)
deriving DecidableEq, Repr

/-- A `{status, body}` response object. -/
structure OpResult where
  status : Nat
  body : Body
deriving DecidableEq, Repr

/-- `this.users`: a JavaScript `Map` in insertion order, embedded as an
association list from normalized username to account. -/
abbrev Store := List (JSStr × Account)

/-- `users.has(k)`. -/
def mapHas (m : Store) (k : JSStr) : Bool :=
  m.any (fun kv => kv.1 = k)

/-- `users.get(k)` (`none` models `undefined`). -/
def mapGet (m : Store) (k : JSStr) : Option Account :=
  (m.find? (fun kv => kv.1 = k)).map Prod.snd

/-- `users.set(k, v)`: replace the binding in place if the key is present,
otherwise append it. -/
def mapSet : Store → JSStr → Account → Store
  | [], k, v => [(k, v)]
  | kv :: rest, k, v =>
      if kv.1 = k then (k, v) :: rest else kv :: mapSet rest k v

/-- `AuthService.register(username, password)`: validate, normalize, check
for an existing account, then insert `{username: normalized, password}`.
Returns the response and the store after the call. -/
def register (users : Store) (username password : JSVal) : OpResult × Store :=
  if (validateCredentials username password).valid then
    if mapHas users (normalizeUsername (strVal username)) then
      (⟨409, Body.err msgUserExists⟩, users)
    else
      (⟨201, Body.msg msgRegSuccess⟩,
        mapSet users (normalizeUsername (strVal username))
          ⟨normalizeUsername (strVal username), strVal password⟩)
  else
    (⟨400, Body.err (validateCredentials username password).error⟩, users)

/-- `AuthService.login(username, password)`: validate, normalize, look up,
then `if (!user || user.password !== password)` return 401, else 200.
Returns the response and the store after the call. -/
def login (users : Store) (username password : JSVal) : OpResult × Store :=
  if (validateCredentials username password).valid then
    match mapGet users (normalizeUsername (strVal username)) with
    | none => (⟨401, Body.err msgInvalid⟩, users)
    | some user =>
        if user.password ≠ strVal password then
          (⟨401, Body.err msgInvalid⟩, users)
        else
          (⟨200, Body.msg msgLoginSuccess⟩, users)
  else
    (⟨400, Body.err (validateCredentials username password).error⟩, users)

/-- Store states reachable from the freshly constructed service
(`this.users = new Map()`) by any sequence of `register`/`login` calls. -/
inductive Reachable : Store → Prop
  | empty : Reachable []
  | reg (users : Store) (u p : JSVal) (h : Reachable users) :
      Reachable (register users u p).2
  | log (users : Store) (u p : JSVal) (h : Reachable users) :
      Reachable (login users u p).2

/-- The store invariant: normalized usernames are pairwise distinct and
every stored key is already in normal form. -/
def goodStore (s : Store) : Prop :=
  List.Pairwise (fun a b => normalizeUsername a.1 ≠ normalizeUsername b.1) s ∧
  ∀ kv ∈ s, normalizeUsername kv.1 = kv.1

theorem toLower_toNat_of_upper (c : Char) (h : 65 ≤ c.toNat ∧ c.toNat ≤ 90) :
    (Char.toLower c).toNat = c.toNat + 32 := by
  unfold Char.toLower
  rw [if_pos h, Char.ofNat, dif_pos (Or.inl (by omega))]
  rfl

theorem toLower_eq_of_not_upper (c : Char) (h : ¬(65 ≤ c.toNat ∧ c.toNat ≤ 90)) :
    Char.toLower c = c := by
  unfold Char.toLower
  rw [if_neg h]

theorem isWS_toLower (c : Char) : isWS (Char.toLower c) = isWS c := by
  by_cases h : 65 ≤ c.toNat ∧ c.toNat ≤ 90
  · have h32 := toLower_toNat_of_upper c h
    have h1 : isWS (Char.toLower c) = false := by
      simp only [isWS, h32, Bool.or_eq_false_iff, decide_eq_false_iff_not]
      omega
    have h2 : isWS c = false := by
      simp only [isWS, Bool.or_eq_false_iff, decide_eq_false_iff_not]
      omega
    rw [h1, h2]
  · rw [toLower_eq_of_not_upper c h]

theorem toLower_toLower (c : Char) :
    Char.toLower (Char.toLower c) = Char.toLower c := by
  by_cases h : 65 ≤ c.toNat ∧ c.toNat ≤ 90
  · have h32 := toLower_toNat_of_upper c h
    exact toLower_eq_of_not_upper (Char.toLower c) (by omega)
  · rw [toLower_eq_of_not_upper c h]
    exact toLower_eq_of_not_upper c h

theorem dropWhile_isWS_map_toLower (l : JSStr) :
    List.dropWhile isWS (l.map Char.toLower) =
      (List.dropWhile isWS l).map Char.toLower := by
  rw [List.dropWhile_map]
  have hfun : (isWS ∘ Char.toLower) = isWS := by
    funext c
    exact isWS_toLower c
  rw [hfun]

theorem rdropWhile_isWS_map_toLower (l : JSStr) :
    List.rdropWhile isWS (l.map Char.toLower) =
      (List.rdropWhile isWS l).map Char.toLower := by
  unfold List.rdropWhile
  rw [← List.map_reverse, dropWhile_isWS_map_toLower, ← List.map_reverse]

theorem trim_map_toLower (l : JSStr) :
    trim (l.map Char.toLower) = (trim l).map Char.toLower := by
  unfold trim
  rw [dropWhile_isWS_map_toLower, rdropWhile_isWS_map_toLower]

theorem dropWhile_isWS_trim (l : JSStr) :
    List.dropWhile isWS (trim l) = trim l := by
  cases he : trim l with
  | nil => simp
  | cons a as =>
    have hne : trim l ≠ [] := by
      rw [he]
      exact List.cons_ne_nil a as
    have hdw : List.dropWhile isWS l ≠ [] := by
      intro h0
      apply hne
      show List.rdropWhile isWS (List.dropWhile isWS l) = []
      rw [h0, List.rdropWhile_nil]
    have hpre : trim l <+: List.dropWhile isWS l :=
      List.rdropWhile_prefix isWS (List.dropWhile isWS l)
    obtain ⟨t, ht⟩ := hpre
    have h2 : (List.dropWhile isWS l).head? = some a := by
      rw [← ht, List.head?_append, he]
      rfl
    have h3 : (List.dropWhile isWS l).head? =
        some ((List.dropWhile isWS l).head hdw) := List.head?_eq_head hdw
    have hhw := List.head_dropWhile_not isWS l hdw
    rw [h3] at h2
    injection h2 with h4
    rw [h4] at hhw
    simp [List.dropWhile_cons, hhw]

theorem trim_trim (l : JSStr) : trim (trim l) = trim l := by
  show List.rdropWhile isWS (List.dropWhile isWS (trim l)) = trim l
  rw [dropWhile_isWS_trim]
  unfold trim
  exact List.rdropWhile_idempotent isWS (List.dropWhile isWS l)

theorem normalizeUsername_idem (s : JSStr) :
    normalizeUsername (normalizeUsername s) = normalizeUsername s := by
  unfold normalizeUsername toLowerStr
  rw [trim_map_toLower, trim_trim, List.map_map]
  congr 1
  funext c
  exact toLower_toLower c

theorem mapHas_false_iff (m : Store) (k : JSStr) :
    mapHas m k = false ↔ ∀ kv ∈ m, kv.1 ≠ k := by
  constructor
  · intro h kv hm he
    have ha : m.any (fun kv => kv.1 = k) = true :=
      List.any_eq_true.mpr ⟨kv, hm, by simp [he]⟩
    rw [mapHas, ha] at h
    exact absurd h (by decide)
  · intro h
    rw [mapHas]
    apply Bool.eq_false_iff.mpr
    intro ha
    obtain ⟨kv, hm, hk⟩ := List.any_eq_true.mp ha
    exact h kv hm (by simpa using hk)

theorem mapGet_mapSet_self (m : Store) (k : JSStr) (v : Account) :
    mapGet (mapSet m k v) k = some v := by
  induction m with
  | nil => simp [mapSet, mapGet]
  | cons kv rest ih =>
    by_cases h : kv.1 = k
    · simp [mapSet, h, mapGet]
    · simp only [mapSet, if_neg h, mapGet, List.find?_cons]
      have hd : (decide (kv.1 = k)) = false := by simp [h]
      rw [hd]
      exact ih

theorem mapSet_of_not_has (m : Store) (k : JSStr) (v : Account)
    (h : mapHas m k = false) : mapSet m k v = m ++ [(k, v)] := by
  induction m with
  | nil => rfl
  | cons kv rest ih =>
    rw [mapHas_false_iff] at h
    have h1 : kv.1 ≠ k := h kv (by simp)
    have h2 : mapHas rest k = false := by
      rw [mapHas_false_iff]
      intro kv2 hm
      exact h kv2 (by simp [hm])
    simp only [mapSet, if_neg h1, List.cons_append]
    rw [ih h2]

theorem mapGet_eq_none_of_not_has (m : Store) (k : JSStr)
    (h : mapHas m k = false) : mapGet m k = none := by
  rw [mapHas_false_iff] at h
  have hf : m.find? (fun kv => kv.1 = k) = none := by
    rw [List.find?_eq_none]
    intro kv hm
    simp [h kv hm]
  rw [mapGet, hf]
  rfl

theorem login_snd (users : Store) (u p : JSVal) : (login users u p).2 = users := by
  unfold login
  split
  · split
    · rfl
    · split
      · rfl
      · rfl
  · rfl

theorem register_invalid_eq (users : Store) (u p : JSVal)
    (h : (validateCredentials u p).valid = false) :
    register users u p =
      (⟨400, Body.err (validateCredentials u p).error⟩, users) := by
  simp [register, h]

theorem register_conflict_eq (users : Store) (u p : JSVal)
    (hv : (validateCredentials u p).valid = true)
    (hh : mapHas users (normalizeUsername (strVal u)) = true) :
    register users u p = (⟨409, Body.err msgUserExists⟩, users) := by
  simp [register, hv, hh]

theorem register_success_eq (users : Store) (u p : JSVal)
    (hv : (validateCredentials u p).valid = true)
    (hh : mapHas users (normalizeUsername (strVal u)) = false) :
    register users u p =
      (⟨201, Body.msg msgRegSuccess⟩,
        mapSet users (normalizeUsername (strVal u))
          ⟨normalizeUsername (strVal u), strVal p⟩) := by
  simp [register, hv, hh]

theorem login_absent_eq (users : Store) (u p : JSVal)
    (hv : (validateCredentials u p).valid = true)
    (hg : mapGet users (normalizeUsername (strVal u)) = none) :
    login users u p = (⟨401, Body.err msgInvalid⟩, users) := by
  simp [login, hv, hg]

theorem login_wrong_password_eq (users : Store) (u p : JSVal) (a : Account)
    (hv : (validateCredentials u p).valid = true)
    (hg : mapGet users (normalizeUsername (strVal u)) = some a)
    (hne : a.password ≠ strVal p) :
    login users u p = (⟨401, Body.err msgInvalid⟩, users) := by
  simp [login, hv, hg, hne]

theorem login_success_eq (users : Store) (u p : JSVal) (a : Account)
    (hv : (validateCredentials u p).valid = true)
    (hg : mapGet users (normalizeUsername (strVal u)) = some a)
    (heq : a.password = strVal p) :
    login users u p = (⟨200, Body.msg msgLoginSuccess⟩, users) := by
  simp [login, hv, hg, heq]

theorem strVal_str (s : JSStr) : strVal (JSVal.str s) = s := rfl

theorem login_invalid_eq (users : Store) (u p : JSVal)
    (h : (validateCredentials u p).valid = false) :
    login users u p =
      (⟨400, Body.err (validateCredentials u p).error⟩, users) := by
  simp [login, h]

theorem countP_eq_one_of_good (s : Store) (k : JSStr) :
    goodStore s → mapHas s k = true →
      s.countP (fun kv => kv.1 = k) = 1 := by
  induction s with
  | nil =>
    intro _ hhas
    rw [mapHas] at hhas
    simp at hhas
  | cons a rest ih =>
    intro hgood hhas
    obtain ⟨hpw, hfix⟩ := hgood
    rw [List.pairwise_cons] at hpw
    by_cases hak : a.1 = k
    · rw [List.countP_cons_of_pos _ _ (by simp [hak])]
      have hz : rest.countP (fun kv => kv.1 = k) = 0 := by
        rw [List.countP_eq_zero]
        intro b hb
        have hna := hpw.1 b hb
        have hfa : normalizeUsername a.1 = a.1 := hfix a (by simp)
        have hfb : normalizeUsername b.1 = b.1 := hfix b (by simp [hb])
        rw [hfa, hfb] at hna
        simp only [decide_eq_true_eq]
        intro hbk
        exact hna (by rw [hbk, hak])
      rw [hz]
    · rw [List.countP_cons_of_neg _ _ (by simp [hak])]
      apply ih
      · exact ⟨hpw.2, fun kv hm => hfix kv (by simp [hm])⟩
      · rw [mapHas, List.any_cons] at hhas
        have : (decide (a.1 = k)) = false := by simp [hak]
        rw [this, Bool.false_or] at hhas
        exact hhas

theorem register_201_inv (users : Store) (u p : JSVal)
    (h : (register users u p).1.status = 201) :
    (validateCredentials u p).valid = true ∧
    mapHas users (normalizeUsername (strVal u)) = false := by
  by_cases hv : (validateCredentials u p).valid = true
  · by_cases hh : mapHas users (normalizeUsername (strVal u)) = true
    · rw [register_conflict_eq users u p hv hh] at h
      simp at h
    · exact ⟨hv, by simpa using hh⟩
  · rw [register_invalid_eq users u p (by simpa using hv)] at h
    simp at h

/-- C8: for every store state and every pair of inputs, `login` leaves the
store's account collection exactly unchanged — it is read-only, regardless
of whether it returns 200, 400 or 401. -/
theorem login_is_readonly (users : Store) (username password : JSVal) :
    (login users username password).2 = users :=
  login_snd users username password

/-- C2 (code bug exhibited): on the failing input
`register("alice","secret123")` from the empty store, the stored account
holds the plaintext password itself — no one-way verifier — and `login`
then accepts exactly that plaintext by direct string comparison. -/
theorem register_stores_plaintext_password :
    (mapGet (register []
        (JSVal.str "alice".data) (JSVal.str "secret123".data)).2
      "alice".data).map Account.password = some "secret123".data ∧
    (login (register []
        (JSVal.str "alice".data) (JSVal.str "secret123".data)).2
      (JSVal.str "alice".data) (JSVal.str "secret123".data)).1.status = 200 := by
  decide

/-- C9 (counterexample): `register("Alice","secret123")` succeeds with 201,
yet no stored account retains the original trimmed casing "Alice" in its
username field — only the lowercased key is kept. -/
theorem register_no_display_casing_cex :
    (register []
        (JSVal.str "Alice".data) (JSVal.str "secret123".data)).1.status = 201 ∧
    ∀ kv ∈ (register []
        (JSVal.str "Alice".data) (JSVal.str "secret123".data)).2,
      kv.2.username ≠ "Alice".data := by
  decide

/-- C9 (amended): for every successful `register(u,p)`, the created
account's `username` field holds the normalized username — the same value
as the unique key — and the original trimmed casing is not retained. -/
theorem register_stores_normalized_username (users : Store) (u p : JSStr)
    (h : (register users (JSVal.str u) (JSVal.str p)).1.status = 201) :
    mapGet (register users (JSVal.str u) (JSVal.str p)).2
        (normalizeUsername u) = some ⟨normalizeUsername u, p⟩ := by
  obtain ⟨hv, hh⟩ := register_201_inv users (JSVal.str u) (JSVal.str p) h
  have hsnd : (register users (JSVal.str u) (JSVal.str p)).2 =
      mapSet users (normalizeUsername u) ⟨normalizeUsername u, p⟩ := by
    rw [register_success_eq users _ _ hv hh]
    rfl
  rw [hsnd]
  exact mapGet_mapSet_self users (normalizeUsername u) ⟨normalizeUsername u, p⟩

/-- Witness for the amended C9 at a concrete input. -/
theorem register_stores_normalized_username_witness :
    mapGet (register []
        (JSVal.str "Alice".data) (JSVal.str "secret123".data)).2
      (normalizeUsername "Alice".data) =
        some ⟨normalizeUsername "Alice".data, "secret123".data⟩ :=
  register_stores_normalized_username [] "Alice".data "secret123".data
    (by decide)

/-- C3: for every valid `(u,p)` whose normalized username is not yet a key
of the store, `register(u,p)` returns 201 with "Registration successful."
and `login(u,p)` on the resulting store returns 200 with
"Login successful.". -/
theorem register_then_login_roundtrip (users : Store) (u p : JSStr)
    (hval : (validateCredentials (JSVal.str u) (JSVal.str p)).valid = true)
    (habs : mapHas users (normalizeUsername u) = false) :
    (register users (JSVal.str u) (JSVal.str p)).1 =
      ⟨201, Body.msg msgRegSuccess⟩ ∧
    (login (register users (JSVal.str u) (JSVal.str p)).2
        (JSVal.str u) (JSVal.str p)).1 = ⟨200, Body.msg msgLoginSuccess⟩ := by
  have hreg := register_success_eq users (JSVal.str u) (JSVal.str p) hval habs
  have hsnd : (register users (JSVal.str u) (JSVal.str p)).2 =
      mapSet users (normalizeUsername u) ⟨normalizeUsername u, p⟩ := by
    rw [hreg]
    rfl
  constructor
  · rw [hreg]
  · rw [hsnd]
    have hget := mapGet_mapSet_self users (normalizeUsername u)
      ⟨normalizeUsername u, p⟩
    rw [login_success_eq _ _ _ _ hval hget rfl]

/-- Witness for C3: the spec's concrete scenario
`register("  Alice  ","secret123")` then `login` with the same inputs. -/
theorem register_then_login_roundtrip_witness :
    (register []
        (JSVal.str "  Alice  ".data) (JSVal.str "secret123".data)).1 =
      ⟨201, Body.msg msgRegSuccess⟩ ∧
    (login (register []
        (JSVal.str "  Alice  ".data) (JSVal.str "secret123".data)).2
      (JSVal.str "  Alice  ".data) (JSVal.str "secret123".data)).1 =
        ⟨200, Body.msg msgLoginSuccess⟩ :=
  register_then_login_roundtrip [] "  Alice  ".data "secret123".data
    (by decide) (by decide)

/-- C4: when the normalized username is already a key of the store,
`register` returns 409 with "Username already exists." and leaves the
store exactly unchanged; under the store invariant exactly one account
remains under that normalized key. -/
theorem register_duplicate_conflict (users : Store) (u2 p2 : JSStr)
    (hval : (validateCredentials (JSVal.str u2) (JSVal.str p2)).valid = true)
    (hhas : mapHas users (normalizeUsername u2) = true) :
    (register users (JSVal.str u2) (JSVal.str p2)).1 =
      ⟨409, Body.err msgUserExists⟩ ∧
    (register users (JSVal.str u2) (JSVal.str p2)).2 = users ∧
    (goodStore users →
      users.countP (fun kv => kv.1 = normalizeUsername u2) = 1) := by
  have hreg := register_conflict_eq users (JSVal.str u2) (JSVal.str p2)
    hval hhas
  refine ⟨by rw [hreg], by rw [hreg], ?_⟩
  intro hgood
  exact countP_eq_one_of_good users (normalizeUsername u2) hgood hhas

/-- Witness for C4: re-registering "alice" (as " ALICE ") against a store
that already holds the key "alice". -/
theorem register_duplicate_conflict_witness :
    (register [("alice".data, ⟨"alice".data, "secret123".data⟩)]
        (JSVal.str " ALICE ".data) (JSVal.str "newpass123".data)).1 =
      ⟨409, Body.err msgUserExists⟩ ∧
    (register [("alice".data, ⟨"alice".data, "secret123".data⟩)]
        (JSVal.str " ALICE ".data) (JSVal.str "newpass123".data)).2 =
      [("alice".data, ⟨"alice".data, "secret123".data⟩)] ∧
    (goodStore [("alice".data, ⟨"alice".data, "secret123".data⟩)] →
      List.countP (fun kv => kv.1 = normalizeUsername " ALICE ".data)
        [(("alice".data : JSStr),
          (⟨"alice".data, "secret123".data⟩ : Account))] = 1) :=
  register_duplicate_conflict
    [("alice".data, ⟨"alice".data, "secret123".data⟩)]
    " ALICE ".data "newpass123".data (by decide) (by decide)

/-- C7: a login whose normalized username is absent and a login whose
account exists but whose password does not verify return identical
results — status 401 with body "Invalid username or password.". -/
theorem login_failures_indistinguishable (users : Store) (u p : JSStr)
    (hval : (validateCredentials (JSVal.str u) (JSVal.str p)).valid = true)
    (hfail : mapGet users (normalizeUsername u) = none ∨
      ∃ a, mapGet users (normalizeUsername u) = some a ∧ a.password ≠ p) :
    (login users (JSVal.str u) (JSVal.str p)).1 =
      ⟨401, Body.err msgInvalid⟩ := by
  rcases hfail with hnone | ⟨a, hsome, hne⟩
  · rw [login_absent_eq users _ _ hval hnone]
  · rw [login_wrong_password_eq users _ _ a hval hsome hne]

/-- Witness for C7: both failure causes at concrete inputs — an unknown
username, and a known username with the wrong password — yield the same
401 result. -/
theorem login_failures_indistinguishable_witness :
    (login [("alice".data, ⟨"alice".data, "secret123".data⟩)]
        (JSVal.str "bobby".data) (JSVal.str "secret123".data)).1 =
      ⟨401, Body.err msgInvalid⟩ ∧
    (login [("alice".data, ⟨"alice".data, "secret123".data⟩)]
        (JSVal.str "alice".data) (JSVal.str "wrongpass".data)).1 =
      ⟨401, Body.err msgInvalid⟩ :=
  ⟨login_failures_indistinguishable
      [("alice".data, ⟨"alice".data, "secret123".data⟩)]
      "bobby".data "secret123".data (by decide) (Or.inl (by decide)),
    login_failures_indistinguishable
      [("alice".data, ⟨"alice".data, "secret123".data⟩)]
      "alice".data "wrongpass".data (by decide)
      (Or.inr ⟨⟨"alice".data, "secret123".data⟩, by decide, by decide⟩)⟩

/-- C1: after a successful `register(u,p)`, logging in with any
casing/whitespace variant `v` of `u` (same normalized form, passing
validation) and the same password succeeds with 200, because `login`
normalizes the username with the same function as `register`. -/
theorem login_accepts_normalized_variant (users : Store) (u v p : JSStr)
    (hreg : (register users (JSVal.str u) (JSVal.str p)).1.status = 201)
    (hnorm : normalizeUsername v = normalizeUsername u)
    (hval : (validateCredentials (JSVal.str v) (JSVal.str p)).valid = true) :
    (login (register users (JSVal.str u) (JSVal.str p)).2
        (JSVal.str v) (JSVal.str p)).1.status = 200 := by
  obtain ⟨hv, hh⟩ := register_201_inv users _ _ hreg
  have hsnd : (register users (JSVal.str u) (JSVal.str p)).2 =
      mapSet users (normalizeUsername u) ⟨normalizeUsername u, p⟩ := by
    rw [register_success_eq users _ _ hv hh]
    rfl
  rw [hsnd]
  have hget : mapGet (mapSet users (normalizeUsername u)
      ⟨normalizeUsername u, p⟩) (normalizeUsername v) =
        some ⟨normalizeUsername u, p⟩ := by
    rw [hnorm]
    exact mapGet_mapSet_self users (normalizeUsername u)
      ⟨normalizeUsername u, p⟩
  rw [login_success_eq _ _ _ _ hval hget rfl]

/-- Witness for C1: register "  Alice  " then log in as "ALICE". -/
theorem login_accepts_normalized_variant_witness :
    (login (register []
        (JSVal.str "  Alice  ".data) (JSVal.str "secret123".data)).2
      (JSVal.str "ALICE".data) (JSVal.str "secret123".data)).1.status = 200 :=
  login_accepts_normalized_variant [] "  Alice  ".data "ALICE".data
    "secret123".data (by decide) (by decide) (by decide)

/-- C10: passwords are never normalized — after `register(u,p)`, a valid
login as any variant `v` with the account's normalized key succeeds if and
only if the supplied password is exactly `p` character for character; any
other password yields 401. -/
theorem login_requires_exact_password (users : Store) (u v p q : JSStr)
    (hreg : (register users (JSVal.str u) (JSVal.str p)).1.status = 201)
    (hnorm : normalizeUsername v = normalizeUsername u)
    (hval : (validateCredentials (JSVal.str v) (JSVal.str q)).valid = true) :
    ((login (register users (JSVal.str u) (JSVal.str p)).2
        (JSVal.str v) (JSVal.str q)).1.status = 200 ↔ q = p) ∧
    (q ≠ p →
      (login (register users (JSVal.str u) (JSVal.str p)).2
        (JSVal.str v) (JSVal.str q)).1 = ⟨401, Body.err msgInvalid⟩) := by
  obtain ⟨hv, hh⟩ := register_201_inv users _ _ hreg
  have hsnd : (register users (JSVal.str u) (JSVal.str p)).2 =
      mapSet users (normalizeUsername u) ⟨normalizeUsername u, p⟩ := by
    rw [register_success_eq users _ _ hv hh]
    rfl
  have hget : mapGet (mapSet users (normalizeUsername u)
      ⟨normalizeUsername u, p⟩) (normalizeUsername v) =
        some ⟨normalizeUsername u, p⟩ := by
    rw [hnorm]
    exact mapGet_mapSet_self users (normalizeUsername u)
      ⟨normalizeUsername u, p⟩
  by_cases hqp : q = p
  · subst hqp
    rw [hsnd, login_success_eq _ _ _ _ hval hget rfl]
    exact ⟨by simp, fun hne => absurd rfl hne⟩
  · rw [hsnd, login_wrong_password_eq _ _ _ _ hval hget
      (fun he => hqp he.symm)]
    exact ⟨by simp [hqp], fun _ => rfl⟩

/-- Witness for C10: with "secret123" registered, "secret123" logs in and
"Secret123" does not. -/
theorem login_requires_exact_password_witness :
    (((login (register []
          (JSVal.str "Alice".data) (JSVal.str "secret123".data)).2
        (JSVal.str "alice".data)
        (JSVal.str "secret123".data)).1.status = 200 ↔
      ("secret123".data : JSStr) = "secret123".data) ∧
     (("secret123".data : JSStr) ≠ "secret123".data →
      (login (register []
          (JSVal.str "Alice".data) (JSVal.str "secret123".data)).2
        (JSVal.str "alice".data) (JSVal.str "secret123".data)).1 =
          ⟨401, Body.err msgInvalid⟩)) ∧
    (((login (register []
          (JSVal.str "Alice".data) (JSVal.str "secret123".data)).2
        (JSVal.str "alice".data)
        (JSVal.str "Secret123".data)).1.status = 200 ↔
      ("Secret123".data : JSStr) = "secret123".data) ∧
     (("Secret123".data : JSStr) ≠ "secret123".data →
      (login (register []
          (JSVal.str "Alice".data) (JSVal.str "secret123".data)).2
        (JSVal.str "alice".data) (JSVal.str "Secret123".data)).1 =
          ⟨401, Body.err msgInvalid⟩)) :=
  ⟨login_requires_exact_password [] "Alice".data "alice".data
      "secret123".data "secret123".data (by decide) (by decide) (by decide),
    login_requires_exact_password [] "Alice".data "alice".data
      "secret123".data "Secret123".data (by decide) (by decide) (by decide)⟩

/-- C5: `validateCredentials` applies its rules in order with the first
failure winning — non-string inputs, then empty trimmed username, then
trimmed username shorter than 3, then raw password shorter than 6, else
valid — and on any failure both `register` and `login` return 400 with the
validation error as the body. -/
theorem validateCredentials_rules_in_order
    (v w : JSVal) (u p : JSStr) (users : Store) :
    ((isString v = false ∨ isString w = false) →
      validateCredentials v w = ⟨false, msgMustBeStrings⟩) ∧
    (trim u = [] →
      validateCredentials (JSVal.str u) (JSVal.str p) =
        ⟨false, msgEmptyUser⟩) ∧
    (trim u ≠ [] → (trim u).length < 3 →
      validateCredentials (JSVal.str u) (JSVal.str p) =
        ⟨false, msgUserTooShort⟩) ∧
    (3 ≤ (trim u).length → p.length < 6 →
      validateCredentials (JSVal.str u) (JSVal.str p) =
        ⟨false, msgPassTooShort⟩) ∧
    (3 ≤ (trim u).length → 6 ≤ p.length →
      validateCredentials (JSVal.str u) (JSVal.str p) = ⟨true, []⟩) ∧
    ((validateCredentials v w).valid = false →
      (register users v w).1 =
        ⟨400, Body.err (validateCredentials v w).error⟩ ∧
      (login users v w).1 =
        ⟨400, Body.err (validateCredentials v w).error⟩) := by
  refine ⟨?_, ?_, ?_, ?_, ?_, ?_⟩
  · intro h
    cases v <;> cases w <;> try rfl
    rcases h with h | h <;> simp [isString] at h
  · intro h
    simp [validateCredentials, h]
  · intro h1 h2
    simp [validateCredentials, h1, h2, MIN_USERNAME_LENGTH]
  · intro h1 h2
    have hne : trim u ≠ [] := by
      intro he
      rw [he] at h1
      simp at h1
    have h3 : ¬((trim u).length < 3) := by omega
    simp [validateCredentials, hne, h3, h2,
      MIN_USERNAME_LENGTH, MIN_PASSWORD_LENGTH]
  · intro h1 h2
    have hne : trim u ≠ [] := by
      intro he
      rw [he] at h1
      simp at h1
    have h3 : ¬((trim u).length < 3) := by omega
    have h4 : ¬(p.length < 6) := by omega
    simp [validateCredentials, hne, h3, h4,
      MIN_USERNAME_LENGTH, MIN_PASSWORD_LENGTH]
  · intro h
    exact ⟨by rw [register_invalid_eq users v w h],
      by rw [login_invalid_eq users v w h]⟩

/-- Witness for C5 at the spec's boundary inputs: a numeric username,
an all-whitespace username, a trimmed username of length 2, a password of
length 5, a passing pair with lengths 3 and 6, and the 400 responses. -/
theorem validateCredentials_rules_in_order_witness :
    validateCredentials (JSVal.num 7) (JSVal.str "secret123".data) =
      ⟨false, msgMustBeStrings⟩ ∧
    validateCredentials (JSVal.str "   ".data) (JSVal.str "secret123".data) =
      ⟨false, msgEmptyUser⟩ ∧
    validateCredentials (JSVal.str " ab ".data) (JSVal.str "secret123".data) =
      ⟨false, msgUserTooShort⟩ ∧
    validateCredentials (JSVal.str "abc".data) (JSVal.str "pass5".data) =
      ⟨false, msgPassTooShort⟩ ∧
    validateCredentials (JSVal.str "abc".data) (JSVal.str "pass66".data) =
      ⟨true, []⟩ ∧
    (register [] (JSVal.num 7) (JSVal.str "secret123".data)).1 =
      ⟨400, Body.err msgMustBeStrings⟩ ∧
    (login [] (JSVal.num 7) (JSVal.str "secret123".data)).1 =
      ⟨400, Body.err msgMustBeStrings⟩ :=
  ⟨(validateCredentials_rules_in_order (JSVal.num 7)
      (JSVal.str "secret123".data) [] [] []).1 (Or.inl rfl),
    (validateCredentials_rules_in_order (JSVal.num 7) (JSVal.num 7)
      "   ".data "secret123".data []).2.1 (by decide),
    (validateCredentials_rules_in_order (JSVal.num 7) (JSVal.num 7)
      " ab ".data "secret123".data []).2.2.1 (by decide) (by decide),
    (validateCredentials_rules_in_order (JSVal.num 7) (JSVal.num 7)
      "abc".data "pass5".data []).2.2.2.1 (by decide) (by decide),
    (validateCredentials_rules_in_order (JSVal.num 7) (JSVal.num 7)
      "abc".data "pass66".data []).2.2.2.2.1 (by decide) (by decide),
    ((validateCredentials_rules_in_order (JSVal.num 7)
      (JSVal.str "secret123".data) [] [] []).2.2.2.2.2 rfl).1,
    ((validateCredentials_rules_in_order (JSVal.num 7)
      (JSVal.str "secret123".data) [] [] []).2.2.2.2.2 rfl).2⟩

/-- C6: every store reachable from the empty store by `register` and
`login` calls holds at most one account per normalized username — no two
entries share a normalized username — and every stored key is a fixed
point of `normalizeUsername`. -/
theorem reachable_store_good (s : Store) (h : Reachable s) : goodStore s := by
  induction h with
  | empty =>
    constructor
    · exact List.Pairwise.nil
    · intro kv hm
      cases hm
  | reg users u p hr ih =>
    by_cases hv : (validateCredentials u p).valid = true
    · by_cases hh : mapHas users (normalizeUsername (strVal u)) = true
      · rw [register_conflict_eq users u p hv hh]
        exact ih
      · have hh2 : mapHas users (normalizeUsername (strVal u)) = false := by
          simpa using hh
        rw [register_success_eq users u p hv hh2,
          mapSet_of_not_has users _ _ hh2]
        show goodStore (users ++
          [(normalizeUsername (strVal u),
            ⟨normalizeUsername (strVal u), strVal p⟩)])
        obtain ⟨hpw, hfix⟩ := ih
        rw [mapHas_false_iff] at hh2
        constructor
        · rw [List.pairwise_append]
          refine ⟨hpw, List.pairwise_singleton _ _, ?_⟩
          intro a ha b hb
          rw [List.mem_singleton] at hb
          subst hb
          show normalizeUsername a.1 ≠
            normalizeUsername (normalizeUsername (strVal u))
          rw [hfix a ha, normalizeUsername_idem]
          exact hh2 a ha
        · intro kv hm
          rw [List.mem_append] at hm
          rcases hm with hm | hm
          · exact hfix kv hm
          · rw [List.mem_singleton] at hm
            subst hm
            exact normalizeUsername_idem (strVal u)
    · rw [register_invalid_eq users u p (by simpa using hv)]
      exact ih
  | log users u p hr ih =>
    rw [login_snd]
    exact ih

/-- Witness for C6: the store after a concrete register call is good. -/
theorem reachable_store_good_witness :
    goodStore (register []
      (JSVal.str "  Alice  ".data) (JSVal.str "secret123".data)).2 :=
  reachable_store_good _
    (Reachable.reg [] (JSVal.str "  Alice  ".data)
      (JSVal.str "secret123".data) Reachable.empty)

end AuthService
